import Mathlib

/-!
Verification development for the risograph rendering core
(`src/lib/risograph.ts` and `src/lib/halftone.ts`).

Modelling conventions (shallow embedding):
* JavaScript numbers are embedded as exact rationals `ℚ`.  All the
  arithmetic the claims are about (clamping, guarded division, rounding,
  thresholds) is exactly representable; transcendental host library
  calls (`Math.cos`, `Math.sin`, `Math.sqrt`) are passed in as explicit
  function parameters (`HostMath`), and the host entropy source
  (`Math.random`) as an explicit `Entropy` parameter whose draws are
  labelled by the site that consumes them.
* The RGBA byte buffers (`ImageData.data`, `Uint8ClampedArray`) are
  embedded pixel-wise as `List RGBA`: the source only ever accesses the
  flat byte array in aligned groups of four (`off = 4*i + c`), so the
  per-pixel view is exact; writes into the clamped output array clamp
  to the byte range `[0,255]` (`clampByte`).
* `hexToRgb` lives in `src/lib/color.ts`, which is not among the
  provided sources.  Modelled from the spec: ink and paper colors are
  RGB triples with 0–255 integer channels, so color options are carried
  directly as parsed `RGB` values.
-/

namespace Risograph

/-- JavaScript `Math.round`: round half away from zero upwards, i.e. `⌊q + 1/2⌋`. -/
def jsRound (q : ℚ) : ℤ := ⌊q + 1/2⌋

/-- Truncation toward zero, the behaviour of JavaScript's `%` operator base. -/
def jsTrunc (q : ℚ) : ℤ := if 0 ≤ q then ⌊q⌋ else ⌈q⌉

/-- JavaScript `q % 1` (fmod with the sign of the dividend). -/
def jsMod1 (q : ℚ) : ℚ := q - jsTrunc q

/-- `Math.max(0, Math.min(1, x))`. -/
def clamp01 (x : ℚ) : ℚ := max 0 (min 1 x)

/-- Write of an integer into a `Uint8ClampedArray` slot: clamp to `[0, 255]`. -/
def clampByte (z : ℤ) : ℕ := min z.toNat 255

/-- The `1e-10` guard threshold of the decomposition solver. -/
def EPS : ℚ := 1 / 10000000000

/-- An RGB color with 0–255 integer channels (`interface RGB`). -/
structure RGB where
  r : ℕ
  g : ℕ
  b : ℕ
deriving DecidableEq

/-- One RGBA pixel of an `ImageData` buffer (straight alpha). -/
structure RGBA where
  r : ℕ
  g : ℕ
  b : ℕ
  a : ℕ
deriving DecidableEq

/-- An `ImageData` bitmap: dimensions plus the row-major pixel list.
Invariant of the data model: `data.length = width * height`. -/
structure ImageData where
  width : ℕ
  height : ℕ
  data : List RGBA

/-- A 3-vector of rationals (an RGB-channel vector scaled to `[0,1]`). -/
structure Vec3 where
  x : ℚ
  y : ℚ
  z : ℚ
deriving DecidableEq

/-- Dot product of two channel vectors. -/
def dot3 (u v : Vec3) : ℚ := u.x * v.x + u.y * v.y + u.z * v.z

/-- Absorption vector of an ink against a reference paper:
`(paper - ink) / 255`, per channel (`inkDeltas` in `decomposeColors`). -/
def inkDelta (paper ink : RGB) : Vec3 :=
  ⟨((paper.r : ℚ) - (ink.r : ℚ)) / 255,
   ((paper.g : ℚ) - (ink.g : ℚ)) / 255,
   ((paper.b : ℚ) - (ink.b : ℚ)) / 255⟩

/-- The fixed sweep count of the coordinate-descent solver (`MAX_ITER`). -/
def MAX_ITER : ℕ := 12

/-- Initial densities: simple projection `clamp(b i / G i i, 0, 1)`,
guarded by `G i i > 1e-10` (`densities[i]` initialisation). -/
def gsInit (G : ℕ → ℕ → ℚ) (b : ℕ → ℚ) (n : ℕ) : List ℚ :=
  (List.range n).map fun i =>
    if EPS < G i i then clamp01 (b i / G i i) else 0

/-- One coordinate-descent update of coordinate `i`: the numerator starts
at `b i` and subtracts `d j * G i j` for every `j ≠ i` (in index order,
using the current values of `d`), then `d i` is set to the guarded clamped
quotient — the inner loop body of `decomposeColors`. -/
def gsUpdate (G : ℕ → ℕ → ℚ) (b : ℕ → ℚ) (n : ℕ) (d : List ℚ) (i : ℕ) : List ℚ :=
  let numer := (List.range n).foldl
    (fun acc j => if j = i then acc else acc - d.getD j 0 * G i j) (b i)
  d.set i (if EPS < G i i then clamp01 (numer / G i i) else 0)

/-- One full Gauss–Seidel sweep: update coordinates `0, …, n-1` in order,
each update seeing the results of the previous ones. -/
def gsSweep (G : ℕ → ℕ → ℚ) (b : ℕ → ℚ) (n : ℕ) (d : List ℚ) : List ℚ :=
  (List.range n).foldl (gsUpdate G b n) d

/-- The per-pixel NNLS solve of `decomposeColors`: Gram matrix `G` and
right-hand side `b` from the ink absorption vectors and the target,
initial projection, then `MAX_ITER` Gauss–Seidel sweeps. -/
def solveDensities (deltas : List Vec3) (t : Vec3) : List ℚ :=
  let n := deltas.length
  let G : ℕ → ℕ → ℚ := fun i j => dot3 (deltas.getD i ⟨0, 0, 0⟩) (deltas.getD j ⟨0, 0, 0⟩)
  let b : ℕ → ℚ := fun i => dot3 (deltas.getD i ⟨0, 0, 0⟩) t
  (gsSweep G b n)^[MAX_ITER] (gsInit G b n)

/-- Densities of one pixel: fully transparent pixels (`α < 0.01`) yield
all-zero densities; otherwise the target is the alpha-weighted deviation
from the paper, solved by `solveDensities`. -/
def densityAt (deltas : List Vec3) (paper : RGB) (px : RGBA) : List ℚ :=
  let alpha : ℚ := (px.a : ℚ) / 255
  if alpha < 1/100 then List.replicate deltas.length 0
  else
    let t : Vec3 :=
      ⟨((paper.r : ℚ) - (px.r : ℚ)) / 255 * alpha,
       ((paper.g : ℚ) - (px.g : ℚ)) / 255 * alpha,
       ((paper.b : ℚ) - (px.b : ℚ)) / 255 * alpha⟩
    solveDensities deltas t

/-- `decomposeColors`: one density map per ink, each over all pixels of
the bitmap.  The source fills the ink-major arrays `maps[i][p]` inside a
single pixel loop; functionally this is the transpose of the per-pixel
solves, which is how it is written here.  The source's symmetric
pre-computed `dotInkInk` array is the function `G` of `solveDensities`
(symmetry is proved in `dot3_comm`). -/
def decomposeColors (img : ImageData) (inkRgbs : List RGB) (paper : RGB) : List (List ℚ) :=
  let deltas := inkRgbs.map (inkDelta paper)
  (List.range inkRgbs.length).map fun i =>
    img.data.map fun px => (densityAt deltas paper px).getD i 0

/-- Host math library calls, passed in explicitly.  `cosDeg a` models
`Math.cos(a * Math.PI / 180)` and `sinDeg a` models
`Math.sin(a * Math.PI / 180)` (the source always converts the screen
angle from degrees before calling the trigonometric functions);
`sqrtQ` models `Math.sqrt`.  All three are fixed pure functions of
their argument for a given host. -/
structure HostMath where
  cosDeg : ℚ → ℚ
  sinDeg : ℚ → ℚ
  sqrtQ : ℚ → ℚ

/-- Host entropy (`Math.random()` draws).  Each call site consumes an
independent uniform draw in `[0,1)`; draws are labelled by the site
that consumes them: `misDraw ci` is the pair drawn for ink layer `ci`'s
registration offset, `grainDraw ci i` the draw consumed while
processing destination pixel `i` of ink layer `ci`'s grain step. -/
structure Entropy where
  misDraw : ℕ → ℚ × ℚ
  grainDraw : ℕ → ℕ → ℚ

/-- Halftone mode: `"am"` or `"fm"`. -/
inductive HalftoneMode where
  | am : HalftoneMode
  | fm : HalftoneMode
deriving DecidableEq

/-- `HalftoneOptions`: dot pitch, screen angle (degrees), optional
density scale (default 1), optional mode (anything but `some fm`,
including `none`, selects AM). -/
structure HalftoneOptions where
  dotSize : ℚ
  angle : ℚ
  density : Option ℚ
  mode : Option HalftoneMode

/-- Row-major construction of a `width × height` pixel grid: entry
`y * w + x` is `g x y`.  This embeds the source's nested
`for (y) for (x)` loops that write each destination index exactly once. -/
def buildGrid {α : Type} (w h : ℕ) (g : ℕ → ℕ → α) : List α :=
  (List.range (w * h)).map fun i => g (i % w) (i / w)

/-- `halftoneAt` (AM kernel): rotate the pixel into screen space, find
the offset from the nearest grid-cell centre at pitch `o.dotSize`,
and produce 1 inside the dot, 0 outside, with a linear antialiasing
ramp of half-width `edge = 0.5 / o.dotSize` around the dot radius
`sqrt(min(density*scale, 1)) * 0.5`. -/
def halftoneAt (hm : HostMath) (x y density : ℚ) (o : HalftoneOptions) : ℚ :=
  let c := hm.cosDeg o.angle
  let s := hm.sinDeg o.angle
  let rx := x * c + y * s
  let ry := -x * s + y * c
  let cellX := jsMod1 (rx / o.dotSize)
  let cellY := jsMod1 (ry / o.dotSize)
  let cx := cellX - (jsRound cellX : ℚ)
  let cy := cellY - (jsRound cellY : ℚ)
  let dist := hm.sqrtQ (cx * cx + cy * cy)
  let scale := o.density.getD 1
  let scaled := min (density * scale) 1
  let radius := hm.sqrtQ scaled * (1/2)
  let edge := 1/2 / o.dotSize
  if dist < radius - edge then 1
  else if radius + edge < dist then 0
  else 1 - (dist - (radius - edge)) / (2 * edge)

/-- `cellHash`: deterministic 32-bit integer hash of a cell coordinate
pair, mapped to `[0,1)`.  The `| 0`, `Math.imul` and `>>>` operations
are exact 32-bit arithmetic, embedded as arithmetic modulo `2^32`. -/
def cellHash (x y : ℤ) : ℚ :=
  let h0 : ℕ := ((x * 374761393 + y * 668265263) % 4294967296).toNat
  let h1 : ℕ := ((h0 ^^^ (h0 >>> 13)) * 1274126177) % 4294967296
  let h2 : ℕ := h1 ^^^ (h1 >>> 16)
  (h2 : ℚ) / 4294967296

/-- `scuffHash`: like `cellHash` but mixing in a per-ink seed. -/
def scuffHash (x y seed : ℤ) : ℚ :=
  let h0 : ℕ := ((x * 374761393 + y * 668265263 + seed * 1013904223) % 4294967296).toNat
  let h1 : ℕ := ((h0 ^^^ (h0 >>> 13)) * 1274126177) % 4294967296
  let h2 : ℕ := h1 ^^^ (h1 >>> 16)
  (h2 : ℚ) / 4294967296

/-- `smoothNoise`: smoothstep-interpolated value noise over a lattice of
pitch `cellSize`, corner values from `scuffHash`. -/
def smoothNoise (x y cellSize : ℚ) (seed : ℤ) : ℚ :=
  let gx : ℤ := ⌊x / cellSize⌋
  let gy : ℤ := ⌊y / cellSize⌋
  let fx : ℚ := x / cellSize - (gx : ℚ)
  let fy : ℚ := y / cellSize - (gy : ℚ)
  let n00 := scuffHash gx gy seed
  let n10 := scuffHash (gx + 1) gy seed
  let n01 := scuffHash gx (gy + 1) seed
  let n11 := scuffHash (gx + 1) (gy + 1) seed
  let sx := fx * fx * (3 - 2 * fx)
  let sy := fy * fy * (3 - 2 * fy)
  (n00 * (1 - sx) + n10 * sx) * (1 - sy) + (n01 * (1 - sx) + n11 * sx) * sy

/-- One pixel of the FM (stochastic) halftone, parametric in the cell
size, the dot radius and the antialiasing edge half-width: examine the
pixel's home cell and its 8 neighbours; a candidate cell hosts a dot
when the density sampled at the (inverse-rotated, rounded) dot centre
exceeds the cell's hash threshold, and the pixel's opacity is the
maximum antialiased contribution over the hosted dots. -/
def fmPixel (hm : HostMath) (dm : List ℚ) (w h : ℕ)
    (cellSize dotRadius edge scale c s : ℚ) (x y : ℕ) : ℚ :=
  let rx := (x : ℚ) * c + (y : ℚ) * s
  let ry := -(x : ℚ) * s + (y : ℚ) * c
  let gx : ℤ := ⌊rx / cellSize⌋
  let gy : ℤ := ⌊ry / cellSize⌋
  [(-1, -1), (-1, 0), (-1, 1), (0, -1), (0, 0), (0, 1), (1, -1), (1, 0), (1, 1)].foldl
    (fun acc (dydx : ℤ × ℤ) =>
      let cx : ℤ := gx + dydx.2
      let cy : ℤ := gy + dydx.1
      let dotRx := ((cx : ℚ) + 1/2) * cellSize
      let dotRy := ((cy : ℚ) + 1/2) * cellSize
      let distX := rx - dotRx
      let distY := ry - dotRy
      let dist := hm.sqrtQ (distX * distX + distY * distY)
      if dotRadius + edge < dist then acc
      else
        let imgX : ℤ := jsRound (dotRx * c - dotRy * s)
        let imgY : ℤ := jsRound (dotRx * s + dotRy * c)
        let d0 : ℚ :=
          if 0 ≤ imgX ∧ imgX < (w : ℤ) ∧ 0 ≤ imgY ∧ imgY < (h : ℤ)
          then dm.getD (imgY * (w : ℤ) + imgX).toNat 0 else 0
        let d1 := min (d0 * scale) 1
        if d1 ≤ cellHash cx cy then acc
        else
          let op := if dist < dotRadius - edge then 1
                    else 1 - (dist - (dotRadius - edge)) / (2 * edge)
          max acc op)
    0

/-- `applyFMHalftone`: FM screening of a whole density map.  The cell
size is the configured pitch, the dot radius is `dotSize * 0.5` and the
edge half-width is `max(0.5, 0.5 / dotSize)`. -/
def applyFMHalftone (hm : HostMath) (dm : List ℚ) (w h : ℕ) (o : HalftoneOptions) : List ℚ :=
  let scale := o.density.getD 1
  let c := hm.cosDeg o.angle
  let s := hm.sinDeg o.angle
  buildGrid w h fun x y =>
    fmPixel hm dm w h o.dotSize (o.dotSize * (1/2)) (max (1/2) (1/2 / o.dotSize)) scale c s x y

/-- `applyHalftone`: dispatch on the mode.  FM runs `applyFMHalftone`
at the configured pitch; every other mode value runs the AM kernel
with the pitch shifted by `+1` (`dotSize: options.dotSize + 1`). -/
def applyHalftone (hm : HostMath) (dm : List ℚ) (w h : ℕ) (o : HalftoneOptions) : List ℚ :=
  if o.mode = some HalftoneMode.fm then
    applyFMHalftone hm dm w h o
  else
    let amO : HalftoneOptions := ⟨o.dotSize + 1, o.angle, o.density, o.mode⟩
    buildGrid w h fun x y => halftoneAt hm (x : ℚ) (y : ℚ) (dm.getD (y * w + x) 0) amO

/-- The scuff (ink starvation) pass: zero every opacity-map entry that
is at least `0.004` but whose smooth-noise sample falls below the noise
threshold; entries below `0.004` are left alone (the source `continue`s). -/
def applyScuff (hmMap : List ℚ) (w h : ℕ) (scuffSize : ℚ) (seed : ℤ) (noise : ℚ) : List ℚ :=
  (List.range (w * h)).map fun i =>
    let v := hmMap.getD i 0
    if v < 1/250 then v
    else if smoothNoise ((i % w : ℕ) : ℚ) ((i / w : ℕ) : ℚ) scuffSize seed < noise then 0
    else v

/-- The effective opacity of one destination pixel in the composite
loop: the (shifted) opacity-map value, perturbed by
`(random - 0.5) * grain` and clamped to `[0,1]` whenever `grain > 0` —
the perturbation is applied to every in-bounds pixel, with no check on
the opacity value itself. -/
def effOpacity (hmMap : List ℚ) (srcIdx : ℕ) (grain r : ℚ) : ℚ :=
  let op := hmMap.getD srcIdx 0
  if 0 < grain then clamp01 (op + (r - 1/2) * grain) else op

/-- The body of the composite loop for one destination pixel `(x, y)`
(`processRisograph` lines 255–295): read the opacity at the
misregistration-shifted source position (leave the pixel untouched when
it falls outside the bitmap), apply grain, leave the pixel untouched
when the result is below `0.004`, and otherwise multiply each RGB
channel of the running output by the transmittance
`1 - opacity * inkOpacity * (1 - ink/255)`, rounding the product back
to a clamped byte.  The alpha byte is never written. -/
def layerPixel (out : List RGBA) (hmMap : List ℚ) (w h : ℕ) (ox oy : ℤ)
    (grain f : ℚ) (rgb : RGB) (draw : ℕ → ℚ) (x y : ℕ) : RGBA :=
  let prev := out.getD (y * w + x) ⟨0, 0, 0, 0⟩
  let srcX : ℤ := (x : ℤ) - ox
  let srcY : ℤ := (y : ℤ) - oy
  if srcX < 0 ∨ (w : ℤ) ≤ srcX ∨ srcY < 0 ∨ (h : ℤ) ≤ srcY then prev
  else
    let op := effOpacity hmMap (srcY * (w : ℤ) + srcX).toNat grain (draw (y * w + x))
    if op < 1/250 then prev
    else
      let tR := 1 - op * f * (1 - (rgb.r : ℚ) / 255)
      let tG := 1 - op * f * (1 - (rgb.g : ℚ) / 255)
      let tB := 1 - op * f * (1 - (rgb.b : ℚ) / 255)
      ⟨clampByte (jsRound ((prev.r : ℚ) * tR)),
       clampByte (jsRound ((prev.g : ℚ) * tG)),
       clampByte (jsRound ((prev.b : ℚ) * tB)),
       prev.a⟩

/-- One ink layer of the composite loop: `layerPixel` at every
destination pixel of the `w × h` grid.  Each loop iteration of the
source writes exactly its own destination pixel and reads the running
output only at that same pixel, so the nested loop is this grid map. -/
def compositeLayer (out : List RGBA) (hmMap : List ℚ) (w h : ℕ) (ox oy : ℤ)
    (grain f : ℚ) (rgb : RGB) (draw : ℕ → ℚ) : List RGBA :=
  buildGrid w h (layerPixel out hmMap w h ox oy grain f rgb draw)

/-- `RisographColor`: an ink.  The hex `color` string is carried as its
parsed `RGB` value (see the module comment about `hexToRgb`). -/
structure RisographColor where
  name : String
  color : RGB
  angle : Option ℚ

/-- `RisographOptions` (optional fields as `Option`, defaults applied
inside `processBuffer` exactly as in the source destructuring). -/
structure RisographOptions where
  colors : List RisographColor
  dotSize : ℚ
  misregistration : ℚ
  grain : ℚ
  density : Option ℚ
  inkOpacity : Option ℚ
  paperColor : Option RGB
  halftoneMode : Option HalftoneMode
  noise : Option ℚ

/-- The fixed screen-angle cycle (`DEFAULT_ANGLES`). -/
def DEFAULT_ANGLES : List ℚ := [15, 75, 0, 45, 30, 60, 90, 105]

/-- The default cream paper (`DEFAULT_PAPER`). -/
def DEFAULT_PAPER : RGB := ⟨245, 240, 232⟩

/-- The reference white used for decomposition (`WHITE`). -/
def WHITE : RGB := ⟨255, 255, 255⟩

/-- The output buffer computed by `processRisograph` before it is drawn
to the canvas: decompose against white, initialise the output to the
paper color at full alpha, then fold each ink layer (halftone, scuff,
misregistration offset, grain, multiplicative composite) over the
buffer in list order. -/
def processBuffer (src : ImageData) (opts : RisographOptions)
    (hm : HostMath) (ent : Entropy) : List RGBA :=
  let w := src.width
  let h := src.height
  let inkOp := opts.inkOpacity.getD (17/20)
  let noiseV := opts.noise.getD 0
  let paper := opts.paperColor.getD DEFAULT_PAPER
  let inkRgbs := opts.colors.map (fun c => c.color)
  let densityMaps := decomposeColors src inkRgbs WHITE
  let out0 := List.replicate (w * h) (⟨paper.r, paper.g, paper.b, 255⟩ : RGBA)
  (List.range opts.colors.length).foldl
    (fun out ci =>
      let rgb := inkRgbs.getD ci ⟨0, 0, 0⟩
      let angle := ((opts.colors.getD ci ⟨"", ⟨0, 0, 0⟩, none⟩).angle).getD
        (DEFAULT_ANGLES.getD (ci % DEFAULT_ANGLES.length) 0)
      let hmMap := applyHalftone hm (densityMaps.getD ci []) w h
        ⟨opts.dotSize, angle, opts.density, opts.halftoneMode⟩
      let hmMap2 := if 0 < noiseV
        then applyScuff hmMap w h (max (opts.dotSize * 3) 6) ((ci : ℤ) * 7919 + 31) noiseV
        else hmMap
      let ox : ℤ := if 0 < opts.misregistration
        then jsRound (((ent.misDraw ci).1 - 1/2) * 2 * opts.misregistration) else 0
      let oy : ℤ := if 0 < opts.misregistration
        then jsRound (((ent.misDraw ci).2 - 1/2) * 2 * opts.misregistration) else 0
      compositeLayer out hmMap2 w h ox oy opts.grain inkOp rgb (ent.grainDraw ci))
    out0

/-- The error vocabulary the specification postulates for the pipeline
(invalid input, configuration, load). -/
inductive RisoError where
  | invalidInput : RisoError
  | configuration : RisoError
  | load : RisoError
deriving DecidableEq

/-- `processRisograph` as observed at the component boundary.  The
source performs no input validation and contains no throw site: every
invocation runs the numeric pipeline to completion, so the embedded
function is total and always returns `Except.ok` of the computed
buffer, with `RisoError` the (never inhabited) failure channel. -/
def processRisograph (src : ImageData) (opts : RisographOptions)
    (hm : HostMath) (ent : Entropy) : Except RisoError (List RGBA) :=
  Except.ok (processBuffer src opts hm ent)

/-! Section: General list and arithmetic helpers -/

theorem getD_range_map {α : Type} (f : ℕ → α) {i n : ℕ} (h : i < n) (d : α) :
    ((List.range n).map f).getD i d = f i := by
  rw [List.getD_eq_getElem _ _ (by simpa using h), List.getElem_map, List.getElem_range]

theorem getD_map_of_lt {α β : Type} (f : α → β) (l : List α) {n : ℕ} (h : n < l.length)
    (d : β) (z : α) : (l.map f).getD n d = f (l.getD n z) := by
  rw [List.getD_eq_getElem _ _ (by simpa using h), List.getElem_map,
    List.getD_eq_getElem _ _ h]

theorem getD_mem_or_default {α : Type} (l : List α) (n : ℕ) (d : α) :
    l.getD n d ∈ l ∨ l.getD n d = d := by
  by_cases h : n < l.length
  · left
    rw [List.getD_eq_getElem _ _ h]
    exact List.getElem_mem h
  · right
    exact List.getD_eq_default _ _ (le_of_not_lt h)

theorem getD_replicate {α : Type} (a : α) (n i : ℕ) (d : α) (hd : d = a) :
    (List.replicate n a).getD i d = a := by
  rcases getD_mem_or_default (List.replicate n a) i d with h | h
  · exact List.eq_of_mem_replicate h
  · rw [h, hd]

theorem buildGrid_length {α : Type} (w h : ℕ) (g : ℕ → ℕ → α) :
    (buildGrid w h g).length = w * h := by
  simp [buildGrid]

theorem buildGrid_getD_idx {α : Type} {w h i : ℕ} (g : ℕ → ℕ → α) (hi : i < w * h) (d : α) :
    (buildGrid w h g).getD i d = g (i % w) (i / w) :=
  getD_range_map _ hi d

theorem index_lt {x y w h : ℕ} (hx : x < w) (hy : y < h) : y * w + x < w * h := by
  calc y * w + x < y * w + w := by omega
    _ = (y + 1) * w := by ring
    _ ≤ h * w := Nat.mul_le_mul_right w hy
    _ = w * h := Nat.mul_comm h w

theorem buildGrid_getD {α : Type} {w h x y : ℕ} (g : ℕ → ℕ → α) (hx : x < w) (hy : y < h)
    (d : α) : (buildGrid w h g).getD (y * w + x) d = g x y := by
  rw [buildGrid_getD_idx g (index_lt hx hy) d]
  have hw : 0 < w := Nat.lt_of_le_of_lt (Nat.zero_le x) hx
  have hmod : (y * w + x) % w = x := by
    rw [Nat.add_comm, Nat.add_mul_mod_self_right, Nat.mod_eq_of_lt hx]
  have hdiv : (y * w + x) / w = y := by
    rw [Nat.add_comm, Nat.add_mul_div_right _ _ hw, Nat.div_eq_of_lt hx, Nat.zero_add]
  rw [hmod, hdiv]

/-! Section: Clamp and solver bounds (claim C1) -/

theorem dot3_comm (u v : Vec3) : dot3 u v = dot3 v u := by
  unfold dot3; ring

theorem clamp01_nonneg (x : ℚ) : 0 ≤ clamp01 x := le_max_left 0 _

theorem clamp01_le_one (x : ℚ) : clamp01 x ≤ 1 :=
  max_le (by norm_num) (min_le_left 1 x)

/-- All entries of a density vector lie in the unit interval. -/
def In01 (l : List ℚ) : Prop := ∀ q ∈ l, 0 ≤ q ∧ q ≤ 1

theorem in01_getD {l : List ℚ} (h : In01 l) (n : ℕ) :
    0 ≤ l.getD n 0 ∧ l.getD n 0 ≤ 1 := by
  rcases getD_mem_or_default l n 0 with hm | hm
  · exact h _ hm
  · rw [hm]; norm_num

theorem in01_guarded (c : Prop) [Decidable c] (x : ℚ) :
    0 ≤ (if c then clamp01 x else 0) ∧ (if c then clamp01 x else 0) ≤ 1 := by
  split
  · exact ⟨clamp01_nonneg x, clamp01_le_one x⟩
  · norm_num

theorem in01_gsInit (G : ℕ → ℕ → ℚ) (b : ℕ → ℚ) (n : ℕ) : In01 (gsInit G b n) := by
  intro q hq
  unfold gsInit at hq
  obtain ⟨i, _, rfl⟩ := List.mem_map.mp hq
  exact in01_guarded _ _

theorem in01_gsUpdate (G : ℕ → ℕ → ℚ) (b : ℕ → ℚ) (n : ℕ) {d : List ℚ} (hd : In01 d)
    (i : ℕ) : In01 (gsUpdate G b n d i) := by
  intro q hq
  unfold gsUpdate at hq
  rcases List.mem_or_eq_of_mem_set hq with hm | rfl
  · exact hd _ hm
  · exact in01_guarded _ _

theorem in01_gsSweep (G : ℕ → ℕ → ℚ) (b : ℕ → ℚ) (n : ℕ) {d : List ℚ} (hd : In01 d) :
    In01 (gsSweep G b n d) := by
  unfold gsSweep
  induction (List.range n) generalizing d with
  | nil => exact hd
  | cons j l ih => exact ih (in01_gsUpdate G b n hd j)

theorem in01_solveDensities (deltas : List Vec3) (t : Vec3) :
    In01 (solveDensities deltas t) := by
  unfold solveDensities
  generalize hG : (fun i j => dot3 (deltas.getD i ⟨0, 0, 0⟩) (deltas.getD j ⟨0, 0, 0⟩)) = G
  generalize hb : (fun i => dot3 (deltas.getD i ⟨0, 0, 0⟩) t) = b
  induction MAX_ITER with
  | zero => exact in01_gsInit G b deltas.length
  | succ k ih =>
    rw [Function.iterate_succ_apply']
    exact in01_gsSweep G b deltas.length ih

theorem densityAt_transparent {deltas : List Vec3} {paper : RGB} {px : RGBA}
    (h : (px.a : ℚ) / 255 < 1/100) :
    densityAt deltas paper px = List.replicate deltas.length 0 := by
  simp only [densityAt]
  rw [if_pos h]

theorem densityAt_nontransparent {deltas : List Vec3} {paper : RGB} {px : RGBA}
    (h : ¬ (px.a : ℚ) / 255 < 1/100) :
    densityAt deltas paper px =
      solveDensities deltas
        ⟨((paper.r : ℚ) - (px.r : ℚ)) / 255 * ((px.a : ℚ) / 255),
         ((paper.g : ℚ) - (px.g : ℚ)) / 255 * ((px.a : ℚ) / 255),
         ((paper.b : ℚ) - (px.b : ℚ)) / 255 * ((px.a : ℚ) / 255)⟩ := by
  simp only [densityAt]
  rw [if_neg h]

theorem in01_densityAt (deltas : List Vec3) (paper : RGB) (px : RGBA) :
    In01 (densityAt deltas paper px) := by
  by_cases h : (px.a : ℚ) / 255 < 1/100
  · rw [densityAt_transparent h]
    intro q hq
    rw [List.eq_of_mem_replicate hq]
    norm_num
  · rw [densityAt_nontransparent h]
    exact in01_solveDensities _ _

/-- C1: for every input bitmap, ink list and reference paper, color
decomposition produces, for every pixel and every ink, a density value
in `[0,1]` (a total rational value — in the exact-arithmetic embedding
every produced value is finite by construction, the division guard
`G_ii > 1e-10` and the clamps keeping every quotient in range), and
every pixel whose straight alpha is below `0.01` yields density exactly
`0` for every ink. -/
theorem decompose_density_bounds (src : ImageData) (inks : List RGB) (paper : RGB)
    (i p : ℕ) :
    0 ≤ ((decomposeColors src inks paper).getD i []).getD p 0 ∧
    ((decomposeColors src inks paper).getD i []).getD p 0 ≤ 1 ∧
    (((src.data.getD p ⟨0, 0, 0, 0⟩).a : ℚ) / 255 < 1/100 →
      ((decomposeColors src inks paper).getD i []).getD p 0 = 0) := by
  simp only [decomposeColors]
  by_cases hi : i < inks.length
  · rw [getD_range_map _ hi]
    by_cases hp : p < src.data.length
    · rw [getD_map_of_lt _ _ hp 0 ⟨0, 0, 0, 0⟩]
      obtain ⟨h0, h1⟩ := in01_getD (in01_densityAt (inks.map (inkDelta paper)) paper
        (src.data.getD p ⟨0, 0, 0, 0⟩)) i
      refine ⟨h0, h1, fun h => ?_⟩
      rw [densityAt_transparent h, getD_replicate _ _ _ _ rfl]
    · rw [List.getD_eq_default _ _ (by simpa using le_of_not_lt hp)]
      norm_num
  · have h1 : ((List.range inks.length).map fun j =>
        src.data.map fun px => (densityAt (inks.map (inkDelta paper)) paper px).getD j 0).getD
          i [] = [] :=
      List.getD_eq_default _ _ (by simpa using le_of_not_lt hi)
    rw [h1]
    simp

/-- Witness for C1: a fully transparent pixel yields density exactly 0. -/
theorem decompose_density_bounds_witness :
    ((decomposeColors ⟨1, 1, [⟨10, 20, 30, 0⟩]⟩ [⟨0, 100, 255⟩] WHITE).getD 0 []).getD 0 0
      = 0 :=
  (decompose_density_bounds ⟨1, 1, [⟨10, 20, 30, 0⟩]⟩ [⟨0, 100, 255⟩] WHITE 0 0).2.2
    (by norm_num)

/-! Section: Claim-side solver (claims C2, C5)

The following definitions follow the wording of the specification's
solver description (spec §4.1), to be compared with the source-derived
`solveDensities`: initialise `d_i = clamp(b_i / G_ii, 0, 1)` guarding
`G_ii ≈ 0`, then perform exactly 12 Gauss–Seidel sweeps in which each
update `d_i = clamp((b_i − Σ_{j≠i} d_j·G_ij) / G_ii, 0, 1)` uses the
most recently updated values of the other coefficients. -/

/-- Claim-side initialisation `d_i = clamp(b_i / G_ii, 0, 1)`, guarded. -/
def specGSInit (G : ℕ → ℕ → ℚ) (b : ℕ → ℚ) (n : ℕ) : List ℚ :=
  (List.range n).map fun i => if EPS < G i i then clamp01 (b i / G i i) else 0

/-- Claim-side update of one coordinate:
`d_i = clamp((b_i − Σ_{j≠i} d_j·G_ij) / G_ii, 0, 1)`, guarded. -/
def specGSStep (G : ℕ → ℕ → ℚ) (b : ℕ → ℚ) (n : ℕ) (d : List ℚ) (i : ℕ) : List ℚ :=
  d.set i (if EPS < G i i then
    clamp01 ((b i - ((List.range n).map fun j =>
      if j = i then 0 else d.getD j 0 * G i j).sum) / G i i)
  else 0)

/-- Claim-side solver: the initialisation followed by exactly 12 sweeps,
the coordinates of each sweep updated in order. -/
def specGaussSeidel (G : ℕ → ℕ → ℚ) (b : ℕ → ℚ) (n : ℕ) : List ℚ :=
  (fun d => (List.range n).foldl (specGSStep G b n) d)^[MAX_ITER] (specGSInit G b n)

/-- The per-pixel target vector `t = (paper − pixel)/255 × α`
(`decomposeColors` lines 132–134). -/
def targetVec (paper : RGB) (px : RGBA) : Vec3 :=
  ⟨((paper.r : ℚ) - (px.r : ℚ)) / 255 * ((px.a : ℚ) / 255),
   ((paper.g : ℚ) - (px.g : ℚ)) / 255 * ((px.a : ℚ) / 255),
   ((paper.b : ℚ) - (px.b : ℚ)) / 255 * ((px.a : ℚ) / 255)⟩

theorem foldl_if_sub (g : ℕ → ℚ) (i : ℕ) (l : List ℕ) (a : ℚ) :
    l.foldl (fun acc j => if j = i then acc else acc - g j) a
      = a - (l.map fun j => if j = i then 0 else g j).sum := by
  induction l generalizing a with
  | nil => simp
  | cons x l ih =>
    simp only [List.foldl_cons, List.map_cons, List.sum_cons]
    by_cases hx : x = i
    · rw [if_pos hx, if_pos hx, ih]
      ring_nf
    · rw [if_neg hx, if_neg hx, ih]
      ring_nf

theorem gsUpdate_eq_spec (G : ℕ → ℕ → ℚ) (b : ℕ → ℚ) (n : ℕ) (d : List ℚ) (i : ℕ) :
    gsUpdate G b n d i = specGSStep G b n d i := by
  simp only [gsUpdate, specGSStep, foldl_if_sub]

theorem gsSweep_eq_spec (G : ℕ → ℕ → ℚ) (b : ℕ → ℚ) (n : ℕ) (d : List ℚ) :
    gsSweep G b n d = (List.range n).foldl (specGSStep G b n) d :=
  List.foldl_ext _ _ d fun d j _ => gsUpdate_eq_spec G b n d j

theorem solveDensities_eq_spec (deltas : List Vec3) (t : Vec3) :
    solveDensities deltas t =
      specGaussSeidel
        (fun i j => dot3 (deltas.getD i ⟨0, 0, 0⟩) (deltas.getD j ⟨0, 0, 0⟩))
        (fun i => dot3 (deltas.getD i ⟨0, 0, 0⟩) t) deltas.length := by
  simp only [solveDensities, specGaussSeidel]
  congr 1
  funext d
  exact gsSweep_eq_spec _ _ _ d

/-- The value `decomposeColors` computes for ink `i` at an in-range
pixel `p` whose alpha is not below the transparency cutoff:
the solve of that pixel's target vector. -/
theorem decompose_getD_nontransparent (src : ImageData) (inks : List RGB) (paper : RGB)
    {p i : ℕ} (hi : i < inks.length) (hp : p < src.data.length)
    (ha : ¬ ((src.data.getD p ⟨0, 0, 0, 0⟩).a : ℚ) / 255 < 1/100) :
    ((decomposeColors src inks paper).getD i []).getD p 0 =
      (solveDensities (inks.map (inkDelta paper))
        (targetVec paper (src.data.getD p ⟨0, 0, 0, 0⟩))).getD i 0 := by
  simp only [decomposeColors]
  rw [getD_range_map _ hi, getD_map_of_lt _ _ hp 0 ⟨0, 0, 0, 0⟩,
    densityAt_nontransparent ha]
  rfl

/-- C2: for every pixel with alpha at least 0.01, the decomposer's value
for each ink is exactly the claim's algorithm: the Gram matrix `G` of
the absorption vectors `a_i = (white − ink_i)/255` (computed from the
inks alone, hence once for the whole image, and symmetric — second
conjunct), the right-hand side `b_i = a_i · t`, the guarded clamped
initialisation, and exactly 12 in-order Gauss–Seidel sweeps with no
convergence check (`specGaussSeidel`). -/
theorem decompose_is_gauss_seidel (src : ImageData) (inks : List RGB) (p i : ℕ)
    (hi : i < inks.length) (hp : p < src.data.length)
    (ha : ¬ ((src.data.getD p ⟨0, 0, 0, 0⟩).a : ℚ) / 255 < 1/100) :
    ((decomposeColors src inks WHITE).getD i []).getD p 0 =
      (specGaussSeidel
        (fun a c => dot3 ((inks.map (inkDelta WHITE)).getD a ⟨0, 0, 0⟩)
          ((inks.map (inkDelta WHITE)).getD c ⟨0, 0, 0⟩))
        (fun a => dot3 ((inks.map (inkDelta WHITE)).getD a ⟨0, 0, 0⟩)
          (targetVec WHITE (src.data.getD p ⟨0, 0, 0, 0⟩)))
        inks.length).getD i 0
    ∧ ∀ a c, dot3 ((inks.map (inkDelta WHITE)).getD a ⟨0, 0, 0⟩)
          ((inks.map (inkDelta WHITE)).getD c ⟨0, 0, 0⟩)
        = dot3 ((inks.map (inkDelta WHITE)).getD c ⟨0, 0, 0⟩)
          ((inks.map (inkDelta WHITE)).getD a ⟨0, 0, 0⟩) := by
  constructor
  · rw [decompose_getD_nontransparent src inks WHITE hi hp ha, solveDensities_eq_spec,
      List.length_map]
  · intro a c
    exact dot3_comm _ _

/-- Concrete fixtures for witnesses. -/
def pxBlack : RGBA := ⟨0, 0, 0, 255⟩

def img1 : ImageData := ⟨1, 1, [pxBlack]⟩

def inkCyan : RGB := ⟨0, 100, 255⟩

/-- Witness for C2 at a 1×1 opaque black bitmap and one cyan ink. -/
theorem decompose_is_gauss_seidel_witness :
    ((decomposeColors img1 [inkCyan] WHITE).getD 0 []).getD 0 0 =
      (specGaussSeidel
        (fun a c => dot3 (([inkCyan].map (inkDelta WHITE)).getD a ⟨0, 0, 0⟩)
          (([inkCyan].map (inkDelta WHITE)).getD c ⟨0, 0, 0⟩))
        (fun a => dot3 (([inkCyan].map (inkDelta WHITE)).getD a ⟨0, 0, 0⟩)
          (targetVec WHITE (img1.data.getD 0 ⟨0, 0, 0, 0⟩)))
        [inkCyan].length).getD 0 0 :=
  (decompose_is_gauss_seidel img1 [inkCyan] 0 0 (by norm_num)
    (by norm_num [img1]) (by norm_num [img1, pxBlack])).1

/-! Section: Single-ink decomposition (claim C5) -/

theorem one_le_sq_int (m : ℤ) (hm : m ≠ 0) : (1 : ℚ) ≤ (m : ℚ) ^ 2 := by
  have h1 : (1 : ℤ) ≤ m ^ 2 := by
    have habs := Int.one_le_abs hm
    nlinarith [sq_abs m]
  exact_mod_cast h1

/-- If the squared norm of an absorption vector against white is within
the `1e-10` guard, the vector is exactly zero: the channels are integer
multiples of `1/255`, so a nonzero vector has squared norm at least
`1/65025`. -/
theorem inkDelta_white_eq_zero (ink : RGB)
    (h : dot3 (inkDelta WHITE ink) (inkDelta WHITE ink) ≤ EPS) :
    inkDelta WHITE ink = ⟨0, 0, 0⟩ := by
  have key : ∀ c : ℕ, ((255 : ℚ) - c) ≠ 0 →
      1/65025 ≤ ((255 : ℚ) - c) / 255 * (((255 : ℚ) - c) / 255) := by
    intro c hc
    have hm : (255 - (c : ℤ)) ≠ 0 := by
      intro h0
      apply hc
      have : ((255 - (c : ℤ) : ℤ) : ℚ) = (255 : ℚ) - c := by push_cast; ring
      rw [← this, h0]
      norm_num
    have h1 : (1 : ℚ) ≤ ((255 - (c : ℤ) : ℤ) : ℚ) ^ 2 := one_le_sq_int _ hm
    have h2 : ((255 - (c : ℤ) : ℤ) : ℚ) = (255 : ℚ) - c := by push_cast; ring
    rw [h2] at h1
    nlinarith
  simp only [inkDelta, WHITE, dot3] at h
  simp only [inkDelta, WHITE]
  rw [Vec3.mk.injEq]
  have hnnr := mul_self_nonneg (((255 : ℚ) - ink.r) / 255)
  have hnng := mul_self_nonneg (((255 : ℚ) - ink.g) / 255)
  have hnnb := mul_self_nonneg (((255 : ℚ) - ink.b) / 255)
  rw [EPS] at h
  refine ⟨?_, ?_, ?_⟩
  · rw [div_eq_zero_iff]
    left
    by_contra hne
    have := key ink.r hne
    linarith
  · rw [div_eq_zero_iff]
    left
    by_contra hne
    have := key ink.g hne
    linarith
  · rw [div_eq_zero_iff]
    left
    by_contra hne
    have := key ink.b hne
    linarith

/-- With a single ink the solver collapses: the initial projection is
already a fixed point of every sweep. -/
theorem solveDensities_single (a t : Vec3) :
    solveDensities [a] t =
      [if EPS < dot3 a a then clamp01 (dot3 a t / dot3 a a) else 0] := by
  simp only [solveDensities, List.length_singleton]
  set G : ℕ → ℕ → ℚ :=
    fun i j => dot3 (([a] : List Vec3).getD i ⟨0, 0, 0⟩) (([a] : List Vec3).getD j ⟨0, 0, 0⟩)
    with hG
  set b : ℕ → ℚ := fun i => dot3 (([a] : List Vec3).getD i ⟨0, 0, 0⟩) t with hb
  have hG00 : G 0 0 = dot3 a a := by simp [hG]
  have hb0 : b 0 = dot3 a t := by simp [hb]
  have hr1 : List.range 1 = [0] := rfl
  have hfix : ∀ x : ℚ,
      gsSweep G b 1 [x] = [if EPS < dot3 a a then clamp01 (dot3 a t / dot3 a a) else 0] := by
    intro x
    simp [gsSweep, gsUpdate, hr1, hG00, hb0]
  have hinit : gsInit G b 1 = [if EPS < dot3 a a then clamp01 (dot3 a t / dot3 a a) else 0] := by
    simp [gsInit, hr1, hG00, hb0]
  rw [hinit]
  exact Function.iterate_fixed (hfix _) MAX_ITER

/-- C5: with exactly one ink, decomposition of a pixel that passes the
alpha cutoff is exactly the direct projection
`clamp(dot(target, absorption) / dot(absorption, absorption), 0, 1)`;
in particular the 12-sweep coordinate descent never moves off the
initial projection.  (When the absorption vector is exactly zero — the
ink equal to the reference white — both sides are `0`, the quotient
`0/0` being `0` in the exact-rational embedding.) -/
theorem single_ink_projection (src : ImageData) (ink : RGB) (p : ℕ)
    (hp : p < src.data.length)
    (ha : ¬ ((src.data.getD p ⟨0, 0, 0, 0⟩).a : ℚ) / 255 < 1/100) :
    ((decomposeColors src [ink] WHITE).getD 0 []).getD p 0 =
      clamp01 (dot3 (targetVec WHITE (src.data.getD p ⟨0, 0, 0, 0⟩)) (inkDelta WHITE ink)
        / dot3 (inkDelta WHITE ink) (inkDelta WHITE ink)) := by
  rw [decompose_getD_nontransparent src [ink] WHITE (by norm_num) hp ha]
  rw [show ([ink].map (inkDelta WHITE)) = [inkDelta WHITE ink] from rfl]
  rw [solveDensities_single, List.getD_cons_zero]
  by_cases hG : EPS < dot3 (inkDelta WHITE ink) (inkDelta WHITE ink)
  · rw [if_pos hG, dot3_comm (targetVec WHITE (src.data.getD p ⟨0, 0, 0, 0⟩))]
  · rw [if_neg hG, inkDelta_white_eq_zero ink (le_of_not_lt hG)]
    simp [dot3, clamp01]

/-- Witness for C5 at a 1×1 opaque black bitmap and one cyan ink. -/
theorem single_ink_projection_witness :
    ((decomposeColors img1 [inkCyan] WHITE).getD 0 []).getD 0 0 =
      clamp01 (dot3 (targetVec WHITE (img1.data.getD 0 ⟨0, 0, 0, 0⟩)) (inkDelta WHITE inkCyan)
        / dot3 (inkDelta WHITE inkCyan) (inkDelta WHITE inkCyan)) :=
  single_ink_projection img1 inkCyan 0 (by norm_num [img1]) (by norm_num [img1, pxBlack])

/-! Section: Compositing lemmas (claims C3, C6, C8, C9, C10) -/

theorem layerPixel_oob {out : List RGBA} {hmMap : List ℚ} {w h : ℕ} {ox oy : ℤ}
    {grain f : ℚ} {rgb : RGB} {draw : ℕ → ℚ} {x y : ℕ}
    (hb : (x : ℤ) - ox < 0 ∨ (w : ℤ) ≤ (x : ℤ) - ox ∨ (y : ℤ) - oy < 0 ∨ (h : ℤ) ≤ (y : ℤ) - oy) :
    layerPixel out hmMap w h ox oy grain f rgb draw x y = out.getD (y * w + x) ⟨0, 0, 0, 0⟩ := by
  simp only [layerPixel]
  rw [if_pos hb]

theorem layerPixel_skip {out : List RGBA} {hmMap : List ℚ} {w h : ℕ} {ox oy : ℤ}
    {grain f : ℚ} {rgb : RGB} {draw : ℕ → ℚ} {x y : ℕ}
    (hb : ¬ ((x : ℤ) - ox < 0 ∨ (w : ℤ) ≤ (x : ℤ) - ox ∨ (y : ℤ) - oy < 0 ∨ (h : ℤ) ≤ (y : ℤ) - oy))
    (hop : effOpacity hmMap (((y : ℤ) - oy) * (w : ℤ) + ((x : ℤ) - ox)).toNat grain
      (draw (y * w + x)) < 1/250) :
    layerPixel out hmMap w h ox oy grain f rgb draw x y = out.getD (y * w + x) ⟨0, 0, 0, 0⟩ := by
  simp only [layerPixel]
  rw [if_neg hb, if_pos hop]

theorem layerPixel_ink {out : List RGBA} {hmMap : List ℚ} {w h : ℕ} {ox oy : ℤ}
    {grain f : ℚ} {rgb : RGB} {draw : ℕ → ℚ} {x y : ℕ}
    (hb : ¬ ((x : ℤ) - ox < 0 ∨ (w : ℤ) ≤ (x : ℤ) - ox ∨ (y : ℤ) - oy < 0 ∨ (h : ℤ) ≤ (y : ℤ) - oy))
    (hop : ¬ effOpacity hmMap (((y : ℤ) - oy) * (w : ℤ) + ((x : ℤ) - ox)).toNat grain
      (draw (y * w + x)) < 1/250) :
    layerPixel out hmMap w h ox oy grain f rgb draw x y =
      ⟨clampByte (jsRound (((out.getD (y * w + x) ⟨0, 0, 0, 0⟩).r : ℚ) *
          (1 - effOpacity hmMap (((y : ℤ) - oy) * (w : ℤ) + ((x : ℤ) - ox)).toNat grain
            (draw (y * w + x)) * f * (1 - (rgb.r : ℚ) / 255)))),
       clampByte (jsRound (((out.getD (y * w + x) ⟨0, 0, 0, 0⟩).g : ℚ) *
          (1 - effOpacity hmMap (((y : ℤ) - oy) * (w : ℤ) + ((x : ℤ) - ox)).toNat grain
            (draw (y * w + x)) * f * (1 - (rgb.g : ℚ) / 255)))),
       clampByte (jsRound (((out.getD (y * w + x) ⟨0, 0, 0, 0⟩).b : ℚ) *
          (1 - effOpacity hmMap (((y : ℤ) - oy) * (w : ℤ) + ((x : ℤ) - ox)).toNat grain
            (draw (y * w + x)) * f * (1 - (rgb.b : ℚ) / 255)))),
       (out.getD (y * w + x) ⟨0, 0, 0, 0⟩).a⟩ := by
  simp only [layerPixel]
  rw [if_neg hb, if_neg hop]

theorem layerPixel_alpha (out : List RGBA) (hmMap : List ℚ) (w h : ℕ) (ox oy : ℤ)
    (grain f : ℚ) (rgb : RGB) (draw : ℕ → ℚ) (x y : ℕ) :
    (layerPixel out hmMap w h ox oy grain f rgb draw x y).a =
      (out.getD (y * w + x) ⟨0, 0, 0, 0⟩).a := by
  simp only [layerPixel]
  split
  · rfl
  · split
    · rfl
    · rfl

theorem compositeLayer_getD {out : List RGBA} {hmMap : List ℚ} {w h : ℕ} {ox oy : ℤ}
    {grain f : ℚ} {rgb : RGB} {draw : ℕ → ℚ} {x y : ℕ} (hx : x < w) (hy : y < h) :
    (compositeLayer out hmMap w h ox oy grain f rgb draw).getD (y * w + x) ⟨0, 0, 0, 0⟩ =
      layerPixel out hmMap w h ox oy grain f rgb draw x y :=
  buildGrid_getD _ hx hy _

theorem compositeLayer_alpha (out : List RGBA) (hmMap : List ℚ) (w h : ℕ) (ox oy : ℤ)
    (grain f : ℚ) (rgb : RGB) (draw : ℕ → ℚ) {j : ℕ} (hj : j < w * h) :
    ((compositeLayer out hmMap w h ox oy grain f rgb draw).getD j ⟨0, 0, 0, 0⟩).a =
      (out.getD j ⟨0, 0, 0, 0⟩).a := by
  unfold compositeLayer
  rw [buildGrid_getD_idx _ hj, layerPixel_alpha]
  rw [Nat.mul_comm, Nat.div_add_mod]

theorem foldl_preserves {α β : Type} (P : α → Prop) (f : α → β → α) (l : List β) (a : α)
    (ha : P a) (hf : ∀ acc x, P acc → P (f acc x)) : P (l.foldl f a) := by
  induction l generalizing a with
  | nil => exact ha
  | cons x l ih => exact ih _ (hf a x ha)

/-- Every pixel of the pipeline's output buffer has alpha 255: the
buffer is initialised at alpha 255 and no layer writes the alpha byte. -/
theorem processBuffer_alpha (src : ImageData) (opts : RisographOptions) (hm : HostMath)
    (ent : Entropy) {j : ℕ} (hj : j < src.width * src.height) :
    ((processBuffer src opts hm ent).getD j ⟨0, 0, 0, 0⟩).a = 255 := by
  simp only [processBuffer]
  apply foldl_preserves (fun out => ((out : List RGBA).getD j ⟨0, 0, 0, 0⟩).a = 255)
  · rw [List.getD_eq_getElem _ _ (by simpa using hj), List.getElem_replicate]
  · intro acc ci hacc
    rw [compositeLayer_alpha _ _ _ _ _ _ _ _ _ _ hj]
    exact hacc

theorem clampByte_round_eq {q : ℚ} (h0 : 0 ≤ q) (h1 : q ≤ 255) :
    (clampByte (jsRound q) : ℤ) = jsRound q := by
  have hz0 : 0 ≤ jsRound q := Int.le_floor.mpr (by push_cast; linarith)
  have hz255 : jsRound q ≤ 255 := by
    have hfl : ((jsRound q : ℤ) : ℚ) ≤ q + 1/2 := Int.floor_le _
    by_contra hgt
    push_neg at hgt
    have h256 : ((256 : ℤ) : ℚ) ≤ ((jsRound q : ℤ) : ℚ) := by exact_mod_cast hgt
    push_cast at h256
    linarith
  unfold clampByte
  have htn : (jsRound q).toNat ≤ 255 := by omega
  rw [min_eq_left htn]
  exact Int.toNat_of_nonneg hz0

theorem transmittance_bounds {op f ab : ℚ} (ho0 : 0 ≤ op) (ho1 : op ≤ 1)
    (hf0 : 0 ≤ f) (hf1 : f ≤ 1) (ha0 : 0 ≤ ab) (ha1 : ab ≤ 1) :
    0 ≤ 1 - op * f * ab ∧ 1 - op * f * ab ≤ 1 := by
  have hof0 : 0 ≤ op * f := mul_nonneg ho0 hf0
  have hof1 : op * f ≤ 1 := by nlinarith
  have h3 : op * f * ab ≤ 1 := by nlinarith
  have h4 : 0 ≤ op * f * ab := mul_nonneg hof0 ha0
  exact ⟨by linarith, by linarith⟩

/-- C3: during compositing of one ink layer, every destination pixel
whose (defected, shifted, grained) opacity is at least 0.004 has each
RGB channel of the output buffer updated to
`round(previous_channel × (1 − opacity·inkOpacity·(1 − inkChannel/255)))`
(the byte clamp of the output array never fires under the stated channel
and opacity bounds); a pixel whose opacity is below 0.004 leaves the
output buffer unchanged; the layer never changes an alpha byte; and
every pixel of the whole pipeline's output buffer has alpha 255. -/
theorem composite_transmittance_update
    (out : List RGBA) (hmMap : List ℚ) (w h : ℕ) (ox oy : ℤ) (grain f : ℚ)
    (rgb : RGB) (draw : ℕ → ℚ) (x y : ℕ)
    (hx : x < w) (hy : y < h)
    (hb : ¬ ((x : ℤ) - ox < 0 ∨ (w : ℤ) ≤ (x : ℤ) - ox ∨
      (y : ℤ) - oy < 0 ∨ (h : ℤ) ≤ (y : ℤ) - oy))
    (hf0 : 0 ≤ f) (hf1 : f ≤ 1)
    (hir : rgb.r ≤ 255) (hig : rgb.g ≤ 255) (hib : rgb.b ≤ 255)
    (hpr : (out.getD (y * w + x) ⟨0, 0, 0, 0⟩).r ≤ 255)
    (hpg : (out.getD (y * w + x) ⟨0, 0, 0, 0⟩).g ≤ 255)
    (hpb : (out.getD (y * w + x) ⟨0, 0, 0, 0⟩).b ≤ 255)
    (hop0 : 0 ≤ effOpacity hmMap (((y : ℤ) - oy) * (w : ℤ) + ((x : ℤ) - ox)).toNat grain
      (draw (y * w + x)))
    (hop1 : effOpacity hmMap (((y : ℤ) - oy) * (w : ℤ) + ((x : ℤ) - ox)).toNat grain
      (draw (y * w + x)) ≤ 1) :
    (effOpacity hmMap (((y : ℤ) - oy) * (w : ℤ) + ((x : ℤ) - ox)).toNat grain
        (draw (y * w + x)) < 1/250 →
      (compositeLayer out hmMap w h ox oy grain f rgb draw).getD (y * w + x) ⟨0, 0, 0, 0⟩ =
        out.getD (y * w + x) ⟨0, 0, 0, 0⟩) ∧
    (1/250 ≤ effOpacity hmMap (((y : ℤ) - oy) * (w : ℤ) + ((x : ℤ) - ox)).toNat grain
        (draw (y * w + x)) →
      ((((compositeLayer out hmMap w h ox oy grain f rgb draw).getD
            (y * w + x) ⟨0, 0, 0, 0⟩).r : ℤ) =
        jsRound (((out.getD (y * w + x) ⟨0, 0, 0, 0⟩).r : ℚ) *
          (1 - effOpacity hmMap (((y : ℤ) - oy) * (w : ℤ) + ((x : ℤ) - ox)).toNat grain
            (draw (y * w + x)) * f * (1 - (rgb.r : ℚ) / 255))) ∧
       (((compositeLayer out hmMap w h ox oy grain f rgb draw).getD
            (y * w + x) ⟨0, 0, 0, 0⟩).g : ℤ) =
        jsRound (((out.getD (y * w + x) ⟨0, 0, 0, 0⟩).g : ℚ) *
          (1 - effOpacity hmMap (((y : ℤ) - oy) * (w : ℤ) + ((x : ℤ) - ox)).toNat grain
            (draw (y * w + x)) * f * (1 - (rgb.g : ℚ) / 255))) ∧
       (((compositeLayer out hmMap w h ox oy grain f rgb draw).getD
            (y * w + x) ⟨0, 0, 0, 0⟩).b : ℤ) =
        jsRound (((out.getD (y * w + x) ⟨0, 0, 0, 0⟩).b : ℚ) *
          (1 - effOpacity hmMap (((y : ℤ) - oy) * (w : ℤ) + ((x : ℤ) - ox)).toNat grain
            (draw (y * w + x)) * f * (1 - (rgb.b : ℚ) / 255))))) ∧
    ((compositeLayer out hmMap w h ox oy grain f rgb draw).getD (y * w + x) ⟨0, 0, 0, 0⟩).a =
      (out.getD (y * w + x) ⟨0, 0, 0, 0⟩).a ∧
    ∀ (s : ImageData) (o : RisographOptions) (hmm : HostMath) (e : Entropy) (j : ℕ),
      j < s.width * s.height →
        ((processBuffer s o hmm e).getD j ⟨0, 0, 0, 0⟩).a = 255 := by
  rw [compositeLayer_getD hx hy]
  refine ⟨fun hlt => layerPixel_skip hb hlt, fun hge => ?_,
    layerPixel_alpha out hmMap w h ox oy grain f rgb draw x y,
    fun s o hmm e j hj => processBuffer_alpha s o hmm e hj⟩
  rw [layerPixel_ink hb (not_lt.mpr hge)]
  have bound : ∀ pc cc : ℕ, pc ≤ 255 → cc ≤ 255 →
      (clampByte (jsRound ((pc : ℚ) *
        (1 - effOpacity hmMap (((y : ℤ) - oy) * (w : ℤ) + ((x : ℤ) - ox)).toNat grain
          (draw (y * w + x)) * f * (1 - (cc : ℚ) / 255)))) : ℤ) =
      jsRound ((pc : ℚ) *
        (1 - effOpacity hmMap (((y : ℤ) - oy) * (w : ℤ) + ((x : ℤ) - ox)).toNat grain
          (draw (y * w + x)) * f * (1 - (cc : ℚ) / 255))) := by
    intro pc cc hpc hcc
    have hc255 : (cc : ℚ) ≤ 255 := by exact_mod_cast hcc
    have hc0 : (0 : ℚ) ≤ (cc : ℚ) := Nat.cast_nonneg cc
    have hab0 : (0 : ℚ) ≤ 1 - (cc : ℚ) / 255 := by linarith
    have hab1 : 1 - (cc : ℚ) / 255 ≤ 1 := by
      have := div_nonneg hc0 (by norm_num : (0:ℚ) ≤ 255)
      linarith
    obtain ⟨ht0, ht1⟩ := transmittance_bounds hop0 hop1 hf0 hf1 hab0 hab1
    have hp255 : (pc : ℚ) ≤ 255 := by exact_mod_cast hpc
    have hp0 : (0 : ℚ) ≤ (pc : ℚ) := Nat.cast_nonneg pc
    apply clampByte_round_eq
    · exact mul_nonneg hp0 ht0
    · nlinarith
  exact ⟨bound _ _ hpr hir, bound _ _ hpg hig, bound _ _ hpb hib⟩

/-- A paper-colored output pixel fixture. -/
def pxPaper : RGBA := ⟨245, 240, 232, 255⟩

/-- Witness for C3: at a fully-covered 1×1 layer the channels follow the
transmittance-and-round formula. -/
theorem composite_transmittance_update_witness :
    (((compositeLayer [pxPaper] [(1 : ℚ)] 1 1 0 0 0 (17/20) ⟨0, 0, 0⟩ (fun _ => 0)).getD
          (0 * 1 + 0) ⟨0, 0, 0, 0⟩).r : ℤ) =
      jsRound ((([pxPaper].getD (0 * 1 + 0) ⟨0, 0, 0, 0⟩).r : ℚ) *
        (1 - effOpacity [(1 : ℚ)] ((((0 : ℕ) : ℤ) - 0) * ((1 : ℕ) : ℤ) +
            (((0 : ℕ) : ℤ) - 0)).toNat 0 ((fun _ => (0 : ℚ)) (0 * 1 + 0)) * (17/20) *
          (1 - (((0 : ℕ) : ℚ)) / 255))) ∧
    (((compositeLayer [pxPaper] [(1 : ℚ)] 1 1 0 0 0 (17/20) ⟨0, 0, 0⟩ (fun _ => 0)).getD
          (0 * 1 + 0) ⟨0, 0, 0, 0⟩).g : ℤ) =
      jsRound ((([pxPaper].getD (0 * 1 + 0) ⟨0, 0, 0, 0⟩).g : ℚ) *
        (1 - effOpacity [(1 : ℚ)] ((((0 : ℕ) : ℤ) - 0) * ((1 : ℕ) : ℤ) +
            (((0 : ℕ) : ℤ) - 0)).toNat 0 ((fun _ => (0 : ℚ)) (0 * 1 + 0)) * (17/20) *
          (1 - (((0 : ℕ) : ℚ)) / 255))) ∧
    (((compositeLayer [pxPaper] [(1 : ℚ)] 1 1 0 0 0 (17/20) ⟨0, 0, 0⟩ (fun _ => 0)).getD
          (0 * 1 + 0) ⟨0, 0, 0, 0⟩).b : ℤ) =
      jsRound ((([pxPaper].getD (0 * 1 + 0) ⟨0, 0, 0, 0⟩).b : ℚ) *
        (1 - effOpacity [(1 : ℚ)] ((((0 : ℕ) : ℤ) - 0) * ((1 : ℕ) : ℤ) +
            (((0 : ℕ) : ℤ) - 0)).toNat 0 ((fun _ => (0 : ℚ)) (0 * 1 + 0)) * (17/20) *
          (1 - (((0 : ℕ) : ℚ)) / 255))) :=
  (composite_transmittance_update [pxPaper] [(1 : ℚ)] 1 1 0 0 0 (17/20) ⟨0, 0, 0⟩
    (fun _ => 0) 0 0 (by norm_num) (by norm_num) (by norm_num)
    (by norm_num) (by norm_num) (by norm_num) (by norm_num) (by norm_num)
    (by simp [pxPaper]) (by simp [pxPaper]) (by simp [pxPaper])
    (by norm_num [effOpacity]) (by norm_num [effOpacity])).2.1
    (by norm_num [effOpacity])

/-- Trivial host fixture (all host math calls return constants). -/
def hostTriv : HostMath := ⟨fun _ => 1, fun _ => 0, fun _ => 0⟩

/-- Zero entropy fixture. -/
def entZero : Entropy := ⟨fun _ => (0, 0), fun _ _ => 0⟩

/-- Alternative entropy fixture (different draws everywhere). -/
def entAlt : Entropy := ⟨fun _ => (1/2, 3/4), fun _ _ => 9/10⟩

/-- An ink option entry for the cyan fixture ink. -/
def inkColorCyan : RisographColor := ⟨"cyan", inkCyan, none⟩

/-- Options fixture: no inks at all. -/
def optsEmpty : RisographOptions := ⟨[], 4, 0, 0, none, none, none, none, none⟩

/-- Options fixture: one cyan ink, no misregistration, no grain. -/
def optsDet : RisographOptions := ⟨[inkColorCyan], 4, 0, 0, none, none, none, none, none⟩

/-- C6: rendering with an empty ink list raises no error and returns the
bitmap of the input's dimensions in which every pixel is the configured
paper color (defaulted to the cream paper) at alpha 255 — the composite
fold over zero layers leaves the paper-initialised buffer untouched. -/
theorem empty_ink_paper_output (src : ImageData) (opts : RisographOptions)
    (hm : HostMath) (ent : Entropy) (hc : opts.colors = []) :
    processRisograph src opts hm ent = Except.ok
      (List.replicate (src.width * src.height)
        ⟨(opts.paperColor.getD DEFAULT_PAPER).r, (opts.paperColor.getD DEFAULT_PAPER).g,
         (opts.paperColor.getD DEFAULT_PAPER).b, 255⟩) := by
  simp only [processRisograph, processBuffer, hc, List.length_nil, List.range_zero,
    List.foldl_nil]

/-- Witness for C6 on a 1×1 bitmap. -/
theorem empty_ink_paper_output_witness :
    processRisograph img1 optsEmpty hostTriv entZero = Except.ok
      (List.replicate (img1.width * img1.height)
        ⟨(optsEmpty.paperColor.getD DEFAULT_PAPER).r,
         (optsEmpty.paperColor.getD DEFAULT_PAPER).g,
         (optsEmpty.paperColor.getD DEFAULT_PAPER).b, 255⟩) :=
  empty_ink_paper_output img1 optsEmpty hostTriv entZero rfl

/-! Section: Determinism (claim C10) -/

theorem buildGrid_congr {α : Type} {w h : ℕ} {g1 g2 : ℕ → ℕ → α}
    (hg : ∀ x y, g1 x y = g2 x y) : buildGrid w h g1 = buildGrid w h g2 := by
  unfold buildGrid
  exact List.map_congr_left fun i _ => hg _ _

theorem layerPixel_nograin (out : List RGBA) (hmMap : List ℚ) (w h : ℕ) (ox oy : ℤ)
    (f : ℚ) (rgb : RGB) (d1 d2 : ℕ → ℚ) (x y : ℕ) :
    layerPixel out hmMap w h ox oy 0 f rgb d1 x y =
      layerPixel out hmMap w h ox oy 0 f rgb d2 x y := by
  simp only [layerPixel, effOpacity, lt_self_iff_false, if_false]

theorem compositeLayer_nograin (out : List RGBA) (hmMap : List ℚ) (w h : ℕ) (ox oy : ℤ)
    (f : ℚ) (rgb : RGB) (d1 d2 : ℕ → ℚ) :
    compositeLayer out hmMap w h ox oy 0 f rgb d1 =
      compositeLayer out hmMap w h ox oy 0 f rgb d2 :=
  buildGrid_congr fun x y => layerPixel_nograin out hmMap w h ox oy f rgb d1 d2 x y

/-- C10: with grain 0 and misregistration 0, the rendered output is a
deterministic function of the bitmap, ink list, configuration and the
(fixed, pure) host math functions: the entropy source is never
consumed, because the remaining pseudo-randomness (FM dot placement,
scuff noise) comes from the pure integer hashes `cellHash`/`scuffHash`
alone.  Two invocations with arbitrary different entropy draws produce
identical buffers. -/
theorem process_deterministic_no_grain_mis (src : ImageData) (opts : RisographOptions)
    (hm : HostMath) (e1 e2 : Entropy) (hg : opts.grain = 0)
    (hmis : opts.misregistration = 0) :
    processRisograph src opts hm e1 = processRisograph src opts hm e2 := by
  simp only [processRisograph, processBuffer, hg, hmis]
  congr 1

/-- Witness for C10: same inputs, two different entropy sources. -/
theorem process_deterministic_no_grain_mis_witness :
    processRisograph img1 optsDet hostTriv entZero =
      processRisograph img1 optsDet hostTriv entAlt :=
  process_deterministic_no_grain_mis img1 optsDet hostTriv entZero entAlt rfl rfl

/-! Section: Grain (claim C9) -/

/-- C9 (amended): when `grain > 0`, the grain step perturbs every
destination pixel whose shifted source is in bounds — with no check on
the pixel's opacity — replacing its opacity by
`clamp((shifted opacity) + (draw − 0.5)·grain, 0, 1)`; the pixel then
deposits through the transmittance formula exactly when the perturbed
opacity reaches 0.004, so a zero-opacity pixel deposits ink whenever
its draw pushes the perturbed opacity to at least 0.004. -/
theorem grain_perturbs_all_pixels
    (out : List RGBA) (hmMap : List ℚ) (w h : ℕ) (ox oy : ℤ) (grain f : ℚ)
    (rgb : RGB) (draw : ℕ → ℚ) (x y : ℕ)
    (hx : x < w) (hy : y < h)
    (hb : ¬ ((x : ℤ) - ox < 0 ∨ (w : ℤ) ≤ (x : ℤ) - ox ∨
      (y : ℤ) - oy < 0 ∨ (h : ℤ) ≤ (y : ℤ) - oy))
    (hgrain : 0 < grain) :
    (compositeLayer out hmMap w h ox oy grain f rgb draw).getD (y * w + x) ⟨0, 0, 0, 0⟩ =
      if clamp01 (hmMap.getD (((y : ℤ) - oy) * (w : ℤ) + ((x : ℤ) - ox)).toNat 0 +
          (draw (y * w + x) - 1/2) * grain) < 1/250
      then out.getD (y * w + x) ⟨0, 0, 0, 0⟩
      else
        ⟨clampByte (jsRound (((out.getD (y * w + x) ⟨0, 0, 0, 0⟩).r : ℚ) *
            (1 - clamp01 (hmMap.getD (((y : ℤ) - oy) * (w : ℤ) + ((x : ℤ) - ox)).toNat 0 +
              (draw (y * w + x) - 1/2) * grain) * f * (1 - (rgb.r : ℚ) / 255)))),
         clampByte (jsRound (((out.getD (y * w + x) ⟨0, 0, 0, 0⟩).g : ℚ) *
            (1 - clamp01 (hmMap.getD (((y : ℤ) - oy) * (w : ℤ) + ((x : ℤ) - ox)).toNat 0 +
              (draw (y * w + x) - 1/2) * grain) * f * (1 - (rgb.g : ℚ) / 255)))),
         clampByte (jsRound (((out.getD (y * w + x) ⟨0, 0, 0, 0⟩).b : ℚ) *
            (1 - clamp01 (hmMap.getD (((y : ℤ) - oy) * (w : ℤ) + ((x : ℤ) - ox)).toNat 0 +
              (draw (y * w + x) - 1/2) * grain) * f * (1 - (rgb.b : ℚ) / 255)))),
         (out.getD (y * w + x) ⟨0, 0, 0, 0⟩).a⟩ := by
  rw [compositeLayer_getD hx hy]
  simp only [layerPixel, effOpacity]
  rw [if_neg hb, if_pos hgrain]

/-- Witness for C9's amended theorem: a zero-opacity pixel with a draw
of 3/4 and full grain. -/
theorem grain_perturbs_all_pixels_witness :
    (compositeLayer [pxPaper] [(0 : ℚ)] 1 1 0 0 1 (17/20) ⟨0, 0, 0⟩
        (fun _ => 3/4)).getD (0 * 1 + 0) ⟨0, 0, 0, 0⟩ =
      if clamp01 ([(0 : ℚ)].getD ((((0 : ℕ) : ℤ) - 0) * ((1 : ℕ) : ℤ) +
          (((0 : ℕ) : ℤ) - 0)).toNat 0 + ((fun _ => (3/4 : ℚ)) (0 * 1 + 0) - 1/2) * 1) < 1/250
      then [pxPaper].getD (0 * 1 + 0) ⟨0, 0, 0, 0⟩
      else
        ⟨clampByte (jsRound ((([pxPaper].getD (0 * 1 + 0) ⟨0, 0, 0, 0⟩).r : ℚ) *
            (1 - clamp01 ([(0 : ℚ)].getD ((((0 : ℕ) : ℤ) - 0) * ((1 : ℕ) : ℤ) +
                (((0 : ℕ) : ℤ) - 0)).toNat 0 +
              ((fun _ => (3/4 : ℚ)) (0 * 1 + 0) - 1/2) * 1) * (17/20) *
              (1 - (((0 : ℕ) : ℚ)) / 255)))),
         clampByte (jsRound ((([pxPaper].getD (0 * 1 + 0) ⟨0, 0, 0, 0⟩).g : ℚ) *
            (1 - clamp01 ([(0 : ℚ)].getD ((((0 : ℕ) : ℤ) - 0) * ((1 : ℕ) : ℤ) +
                (((0 : ℕ) : ℤ) - 0)).toNat 0 +
              ((fun _ => (3/4 : ℚ)) (0 * 1 + 0) - 1/2) * 1) * (17/20) *
              (1 - (((0 : ℕ) : ℚ)) / 255)))),
         clampByte (jsRound ((([pxPaper].getD (0 * 1 + 0) ⟨0, 0, 0, 0⟩).b : ℚ) *
            (1 - clamp01 ([(0 : ℚ)].getD ((((0 : ℕ) : ℤ) - 0) * ((1 : ℕ) : ℤ) +
                (((0 : ℕ) : ℤ) - 0)).toNat 0 +
              ((fun _ => (3/4 : ℚ)) (0 * 1 + 0) - 1/2) * 1) * (17/20) *
              (1 - (((0 : ℕ) : ℚ)) / 255)))),
         ([pxPaper].getD (0 * 1 + 0) ⟨0, 0, 0, 0⟩).a⟩ :=
  grain_perturbs_all_pixels [pxPaper] [(0 : ℚ)] 1 1 0 0 1 (17/20) ⟨0, 0, 0⟩
    (fun _ => 3/4) 0 0 (by norm_num) (by norm_num) (by norm_num) (by norm_num)

/-- Counterexample for C9 as stated: a pixel whose (shifted) opacity is
exactly zero nevertheless deposits ink for a draw of 0.9 with grain 1 —
the grain step perturbs it to opacity 0.4 and the composite changes the
paper pixel. -/
theorem grain_zero_opacity_deposits_cex :
    (compositeLayer [pxPaper] [(0 : ℚ)] 1 1 0 0 1 (17/20) ⟨0, 0, 0⟩
        (fun _ => 9/10)).getD 0 ⟨0, 0, 0, 0⟩ ≠ pxPaper := by
  have hr1 : List.range (1 * 1) = [0] := rfl
  have h1 : (compositeLayer [pxPaper] [(0 : ℚ)] 1 1 0 0 1 (17/20) ⟨0, 0, 0⟩
      (fun _ => 9/10)).getD 0 ⟨0, 0, 0, 0⟩ = ⟨162, 158, 153, 255⟩ := by
    simp only [compositeLayer, buildGrid, hr1, List.map_cons, List.map_nil,
      List.getD_cons_zero]
    norm_num [layerPixel, effOpacity, clamp01, clampByte, jsRound, pxPaper]
    exact ⟨rfl, rfl, rfl⟩
  rw [h1]
  simp [pxPaper]

/-! Section: Absent input validation (claims C7, C8) -/

/-- A black ink option fixture. -/
def inkColorBlack : RisographColor := ⟨"black", ⟨0, 0, 0⟩, none⟩

/-- Counterexample for C7 as stated: an invocation with dot pitch 0 (AM
mode) completes normally instead of failing with a Configuration
error — `processRisograph` contains no validation of `dotSize`. -/
theorem nonpositive_pitch_no_error_cex :
    (processRisograph img1 ⟨[inkColorBlack], 0, 0, 0, none, none, none, none, none⟩
      hostTriv entZero).isOk = true := rfl

/-- C7 (amended): no Configuration error exists: for every invocation,
also with non-positive dot pitch, the pipeline runs to completion and
returns the computed buffer (in AM mode a configured pitch of 0 is
shifted to the effective pitch 1 by `applyHalftone`, so no degenerate
grid arises there; FM mode simply computes with the degenerate cell
size). -/
theorem nonpositive_pitch_completes (src : ImageData) (opts : RisographOptions)
    (hm : HostMath) (ent : Entropy) (hd : opts.dotSize ≤ 0) :
    (processRisograph src opts hm ent).isOk = true ∧
      processRisograph src opts hm ent = Except.ok (processBuffer src opts hm ent) :=
  ⟨rfl, rfl⟩

/-- Witness for C7's amended theorem at pitch `-1`. -/
theorem nonpositive_pitch_completes_witness :
    (processRisograph img1 ⟨[inkColorBlack], -1, 0, 0, none, none, none, none, none⟩
        hostTriv entZero).isOk = true ∧
      processRisograph img1 ⟨[inkColorBlack], -1, 0, 0, none, none, none, none, none⟩
          hostTriv entZero =
        Except.ok (processBuffer img1
          ⟨[inkColorBlack], -1, 0, 0, none, none, none, none, none⟩ hostTriv entZero) :=
  nonpositive_pitch_completes img1 ⟨[inkColorBlack], -1, 0, 0, none, none, none, none, none⟩
    hostTriv entZero (by norm_num)

/-- Counterexample for C8 as stated: an invocation on a 0×3 bitmap runs
the whole pipeline (decomposition over zero pixels, one composite
layer) and returns an empty buffer instead of failing with an
Invalid-Input error — `processRisograph` contains no dimension check. -/
theorem zero_area_no_error_cex :
    processRisograph ⟨0, 3, []⟩ ⟨[inkColorBlack], 4, 0, 0, none, none, none, none, none⟩
      hostTriv entZero = Except.ok [] := rfl

/-- C8 (amended): a zero-area bitmap (width 0 or height 0) is processed
without any error: the pipeline completes and returns the zero-pixel
buffer of the bitmap's (empty) dimensions. -/
theorem zero_area_empty_output (src : ImageData) (opts : RisographOptions)
    (hm : HostMath) (ent : Entropy) (hwh : src.width = 0 ∨ src.height = 0) :
    processRisograph src opts hm ent = Except.ok [] := by
  have hwh0 : src.width * src.height = 0 := by
    rcases hwh with h | h <;> simp [h]
  simp only [processRisograph, processBuffer]
  congr 1
  apply foldl_preserves (fun out => out = [])
  · rw [hwh0, List.replicate_zero]
  · intro acc ci _
    simp only [compositeLayer, buildGrid, hwh0, List.range_zero, List.map_nil]

/-- Witness for C8's amended theorem on a 5×0 bitmap. -/
theorem zero_area_empty_output_witness :
    processRisograph ⟨5, 0, []⟩ optsDet hostTriv entZero = Except.ok [] :=
  zero_area_empty_output ⟨5, 0, []⟩ optsDet hostTriv entZero (Or.inr rfl)

/-! Section: Halftone pitch (claim C4) -/

theorem applyHalftone_am {hm : HostMath} {dm : List ℚ} {w h : ℕ} {o : HalftoneOptions}
    (hmode : ¬ o.mode = some HalftoneMode.fm) {x y : ℕ} (hx : x < w) (hy : y < h) :
    (applyHalftone hm dm w h o).getD (y * w + x) 0 =
      halftoneAt hm x y (dm.getD (y * w + x) 0) ⟨o.dotSize + 1, o.angle, o.density, o.mode⟩ := by
  simp only [applyHalftone]
  rw [if_neg hmode]
  exact buildGrid_getD _ hx hy 0

theorem applyHalftone_fm {hm : HostMath} {dm : List ℚ} {w h : ℕ} {o : HalftoneOptions}
    (hmode : o.mode = some HalftoneMode.fm) {x y : ℕ} (hx : x < w) (hy : y < h) :
    (applyHalftone hm dm w h o).getD (y * w + x) 0 =
      fmPixel hm dm w h o.dotSize (o.dotSize * (1/2)) (max (1/2) (1/2 / o.dotSize))
        (o.density.getD 1) (hm.cosDeg o.angle) (hm.sinDeg o.angle) x y := by
  simp only [applyHalftone]
  rw [if_pos hmode]
  simp only [applyFMHalftone]
  exact buildGrid_getD _ hx hy 0

/-- C4: from the same configured pitch `p`, AM-mode synthesis evaluates
the AM kernel at effective pitch exactly `p + 1` — `halftoneAt`'s pitch
argument drives both the grid-cell location (`rx / dotSize`) and the
antialiasing edge half-width (`0.5 / dotSize`) — while FM-mode
synthesis evaluates the FM kernel with cell size exactly `p` and fixed
dot radius exactly `p / 2`. -/
theorem halftone_effective_pitch (hm : HostMath) (dm : List ℚ) (w h : ℕ)
    (o : HalftoneOptions) (x y : ℕ) (hx : x < w) (hy : y < h) :
    (¬ o.mode = some HalftoneMode.fm →
      (applyHalftone hm dm w h o).getD (y * w + x) 0 =
        halftoneAt hm x y (dm.getD (y * w + x) 0)
          ⟨o.dotSize + 1, o.angle, o.density, o.mode⟩) ∧
    (o.mode = some HalftoneMode.fm →
      (applyHalftone hm dm w h o).getD (y * w + x) 0 =
        fmPixel hm dm w h o.dotSize (o.dotSize * (1/2)) (max (1/2) (1/2 / o.dotSize))
          (o.density.getD 1) (hm.cosDeg o.angle) (hm.sinDeg o.angle) x y) :=
  ⟨fun hmode => applyHalftone_am hmode hx hy, fun hmode => applyHalftone_fm hmode hx hy⟩

/-- Witness for C4 at pitch 4, a 1×1 density map, both mode branches
(the configured mode here is FM, so the first conjunct is vacuous and
the second applies). -/
theorem halftone_effective_pitch_witness :
    (¬ (⟨4, 15, none, some HalftoneMode.fm⟩ : HalftoneOptions).mode = some HalftoneMode.fm →
      (applyHalftone hostTriv [(1 : ℚ)] 1 1 ⟨4, 15, none, some HalftoneMode.fm⟩).getD
          (0 * 1 + 0) 0 =
        halftoneAt hostTriv 0 0 ([(1 : ℚ)].getD (0 * 1 + 0) 0)
          ⟨(⟨4, 15, none, some HalftoneMode.fm⟩ : HalftoneOptions).dotSize + 1, 15, none,
            some HalftoneMode.fm⟩) ∧
    ((⟨4, 15, none, some HalftoneMode.fm⟩ : HalftoneOptions).mode = some HalftoneMode.fm →
      (applyHalftone hostTriv [(1 : ℚ)] 1 1 ⟨4, 15, none, some HalftoneMode.fm⟩).getD
          (0 * 1 + 0) 0 =
        fmPixel hostTriv [(1 : ℚ)] 1 1 (⟨4, 15, none, some HalftoneMode.fm⟩ : HalftoneOptions).dotSize
          ((⟨4, 15, none, some HalftoneMode.fm⟩ : HalftoneOptions).dotSize * (1/2))
          (max (1/2) (1/2 / (⟨4, 15, none, some HalftoneMode.fm⟩ : HalftoneOptions).dotSize))
          ((⟨4, 15, none, (some HalftoneMode.fm : Option HalftoneMode)⟩ : HalftoneOptions).density.getD 1)
          (hostTriv.cosDeg 15) (hostTriv.sinDeg 15) 0 0) :=
  halftone_effective_pitch hostTriv [(1 : ℚ)] 1 1 ⟨4, 15, none, some HalftoneMode.fm⟩ 0 0
    (by norm_num) (by norm_num)

end Risograph
